import Mathlib

/-!
Verification of the svg-scale scaling engine (Rust sources: src/scale.rs,
src/path.rs, src/transform.rs, src/svg.rs) against its specification.

Modelling conventions:
* `f64` values are modelled by exact fractions `Frac` (integer numerator,
  positive integer denominator, not normalized).  All arithmetic performed by
  the program on the values reachable in the claims is exact in `f64` terms of
  small dyadic/decimal numbers or is only inspected structurally, so exact
  fractions are a faithful model; binary floating-point rounding noise is out
  of scope.  Non-finite literals (`inf`, `NaN`), which Rust's float parser and
  nom's `double` additionally accept, are outside the fraction model and are
  noted where the corresponding branch is omitted.
* Strings are ASCII in all inputs of interest, so byte offsets and character
  offsets coincide; both are modelled as character indices.
-/

namespace SvgScale

/-- Exact fraction model of `f64`: numerator over positive denominator,
not normalized.  Equality of values is `eqF` (cross multiplication), mirroring
`f64` comparison; structural equality is only used where both sides are built
by the same computation. -/
structure Frac where
  num : Int
  den : Int
deriving DecidableEq, Repr

def ofIntF (n : Int) : Frac := ⟨n, 1⟩

def fzero : Frac := ⟨0, 1⟩

def fone : Frac := ⟨1, 1⟩

def halfF : Frac := ⟨1, 2⟩

def mulF (a b : Frac) : Frac := ⟨a.num * b.num, a.den * b.den⟩

def addF (a b : Frac) : Frac := ⟨a.num * b.den + b.num * a.den, a.den * b.den⟩

def subF (a b : Frac) : Frac := ⟨a.num * b.den - b.num * a.den, a.den * b.den⟩

def negF (a : Frac) : Frac := ⟨-a.num, a.den⟩

def absF (a : Frac) : Frac := ⟨|a.num|, a.den⟩

/-- Reciprocal; total, with the (guarded-against in the source) zero case mapped
to zero. -/
def invF (a : Frac) : Frac :=
  if a.num < 0 then ⟨-a.den, -a.num⟩
  else if a.num = 0 then ⟨0, 1⟩
  else ⟨a.den, a.num⟩

def divF (a b : Frac) : Frac := mulF a (invF b)

/-- Value comparison `a < b` (denominators positive). -/
def ltF (a b : Frac) : Bool := a.num * b.den < b.num * a.den

/-- Value equality `a == b` as on `f64` (denominators positive). -/
def eqF (a b : Frac) : Bool := a.num * b.den == b.num * a.den

def tenPow : Nat → Nat
  | 0 => 1
  | n + 1 => 10 * tenPow n

def tenPowF (p : Nat) : Frac := ⟨Int.ofNat (tenPow p), 1⟩

/-- Floor of a fraction (denominator positive). -/
def floorF (q : Frac) : Int := Int.fdiv q.num q.den

/-- Round half to even, as Rust's `format!` does on the decimal digit string. -/
def rhe (q : Frac) : Int :=
  let f := floorF q
  let r := subF q (ofIntF f)
  if ltF r halfF then f
  else if ltF halfF r then f + 1
  else if f % 2 = 0 then f else f + 1

def natDigitsAux : Nat → Nat → List Char → List Char
  | 0, _, acc => acc
  | fuel + 1, n, acc =>
    if n < 10 then Char.ofNat (48 + n % 10) :: acc
    else natDigitsAux fuel (n / 10) (Char.ofNat (48 + n % 10) :: acc)

/-- Decimal digits of a natural number, no leading zeros (`"0"` for zero). -/
def natDigits (n : Nat) : List Char := natDigitsAux (n + 1) n []

/-- `format!("{:.*}", p, v)`: fixed-point rendering with exactly `p` fractional
digits, round half to even.  (A true `f64` renders the exact binary value; on
the exact fractions of this model the two coincide.) -/
def renderFixed (p : Nat) (v : Frac) : String :=
  let neg := v.num < 0
  let m : Int := rhe (absF (mulF v (tenPowF p)))
  let ds := natDigits m.toNat
  let ds := if ds.length ≤ p then List.replicate (p + 1 - ds.length) '0' ++ ds else ds
  let body := if p = 0 then ds else ds.take (ds.length - p) ++ '.' :: ds.drop (ds.length - p)
  String.mk (if neg then '-' :: body else body)

/-- `s.trim_end_matches('0')`. -/
def trimEndZeros (s : String) : String :=
  String.mk ((s.data.reverse.dropWhile (fun c => c = '0')).reverse)

/-- `s.trim_end_matches('.')`. -/
def trimEndDot (s : String) : String :=
  String.mk ((s.data.reverse.dropWhile (fun c => c = '.')).reverse)

/-- `fmt_num` from src/transform.rs (same body as `ScaleCtx::fmt`). -/
def fmtNum (v : Frac) (precision : Nat) : String :=
  trimEndDot (trimEndZeros (renderFixed precision v))

/-- `ScaleCtx` from src/scale.rs. -/
structure ScaleCtx where
  scale : Frac
  precision : Nat
  fixStroke : Bool

/-- `ScaleCtx::fmt` from src/scale.rs. -/
def ScaleCtx.fmt (ctx : ScaleCtx) (v : Frac) : String :=
  trimEndDot (trimEndZeros (renderFixed ctx.precision v))

/-! ### Decimal literal parsing (`str::parse::<f64>()` on decimal forms)

Rust's float parser additionally accepts `inf`/`infinity`/`NaN`; those denote
non-finite values outside the fraction model and the strings fed to this
function inside the engine consist of sign/digit/dot/exponent characters only,
so the decimal grammar below is the relevant fragment. -/

def digitsToNat (ds : List Char) : Nat :=
  ds.foldl (fun acc c => 10 * acc + (c.toNat - 48)) 0

/-- Parse `[+-]? ( digits ("." digits?)? | "." digits ) ([eE] [+-]? digits)?`,
requiring the whole input to match, to an exact fraction. -/
def parseF64Chars (s : List Char) : Option Frac :=
  let (sgnNeg, r0) :=
    match s with
    | '+' :: r => (false, r)
    | '-' :: r => (true, r)
    | _ => (false, s)
  let (d1, r1) := r0.span Char.isDigit
  let (d2, r2) :=
    match r1 with
    | '.' :: r => (some (r.span Char.isDigit).1, (r.span Char.isDigit).2)
    | _ => (none, r1)
  if d1 = [] ∧ (d2.getD []) = [] then none
  else
    let fracDigits := d2.getD []
    let mant : Int := Int.ofNat (digitsToNat d1 * tenPow fracDigits.length + digitsToNat fracDigits)
    let mant := if sgnNeg then -mant else mant
    let base : Frac := ⟨mant, Int.ofNat (tenPow fracDigits.length)⟩
    match r2 with
    | [] => some base
    | e :: r3 =>
      if e = 'e' ∨ e = 'E' then
        let (expNeg, r4) :=
          match r3 with
          | '+' :: r => (false, r)
          | '-' :: r => (true, r)
          | _ => (false, r3)
        let (d3, r5) := r4.span Char.isDigit
        if d3 = [] ∨ r5 ≠ [] then none
        else
          let ev := digitsToNat d3
          some (if expNeg then ⟨base.num, base.den * Int.ofNat (tenPow ev)⟩
                else ⟨base.num * Int.ofNat (tenPow ev), base.den⟩)
      else none

def parseF64 (s : String) : Option Frac := parseF64Chars s.data

/-- Rust `str::trim`: drop leading and trailing whitespace (ASCII scope). -/
def trimChars (s : String) : String :=
  String.mk (((s.data.dropWhile Char.isWhitespace).reverse.dropWhile Char.isWhitespace).reverse)

/-! ### Numeric token / list scaling (src/svg.rs lines 66-169) -/

/-- `is_num_char` from src/svg.rs. -/
def isNumChar (c : Char) : Bool :=
  c.isDigit || c = '-' || c = '+' || c = '.' || c = 'e' || c = 'E'

/-- `is_supported_unit` from src/svg.rs. -/
def isSupportedUnit (u : String) : Bool :=
  u = "" || u = "px" || u = "pt" || u = "pc" || u = "mm" || u = "cm" || u = "in"

/-- `split_num_and_unit` from src/svg.rs: split at the end of the maximal
leading run of numeric characters. -/
def splitNumAndUnit (t : String) : String × String :=
  let (numPart, unit) := t.data.span isNumChar
  (String.mk numPart, String.mk unit)

/-- `scale_number_token` from src/svg.rs. -/
def scaleNumberToken (token : String) (ctx : ScaleCtx) : Option String :=
  let t := trimChars token
  if t = "" then none
  else
    let (numPart, unit) := splitNumAndUnit t
    if numPart = "" then none
    else
      let unit := trimChars unit
      if unit = "%" then none
      else if !isSupportedUnit unit then none
      else
        match parseF64 numPart with
        | none => none
        | some num =>
          let out := ctx.fmt (mulF num ctx.scale)
          some (if unit = "" then out else out ++ unit)

/-- The `flush_buf` closure of `scale_number_list`: an uninterpretable buffered
token is copied to the output verbatim. -/
def flushBuf (ctx : ScaleCtx) (out buf : String) : String :=
  if buf = "" then out
  else
    match scaleNumberToken buf ctx with
    | some scaled => out ++ scaled
    | none => out ++ buf

def numListLoop (ctx : ScaleCtx) : List Char → String → String → String
  | [], out, buf => flushBuf ctx out buf
  | c :: cs, out, buf =>
    if isNumChar c || c.isAlpha then numListLoop ctx cs out (buf.push c)
    else numListLoop ctx cs ((flushBuf ctx out buf).push c) ""

/-- `scale_number_list` from src/svg.rs. -/
def scaleNumberList (value : String) (ctx : ScaleCtx) : String :=
  numListLoop ctx value.data "" ""

/-- The `flush_buf` closure of `scale_number_list_inverse` (builds a fresh
`ScaleCtx` whose scale is the reciprocal). -/
def flushBufInv (ctx : ScaleCtx) (inv : Frac) (out buf : String) : String :=
  if buf = "" then out
  else
    match scaleNumberToken buf ⟨inv, ctx.precision, ctx.fixStroke⟩ with
    | some scaled => out ++ scaled
    | none => out ++ buf

def numListLoopInv (ctx : ScaleCtx) (inv : Frac) : List Char → String → String → String
  | [], out, buf => flushBufInv ctx inv out buf
  | c :: cs, out, buf =>
    if isNumChar c || c.isAlpha then numListLoopInv ctx inv cs out (buf.push c)
    else numListLoopInv ctx inv cs ((flushBufInv ctx inv out buf).push c) ""

/-- `scale_number_list_inverse` from src/svg.rs: guarded against `scale == 0.0`,
otherwise scales each supported token by `1.0 / scale`. -/
def scaleNumberListInverse (value : String) (ctx : ScaleCtx) : String :=
  if eqF ctx.scale fzero then value
  else numListLoopInv ctx (divF fone ctx.scale) value.data "" ""

/-- `scale_length_value` from src/svg.rs. -/
def scaleLengthValue (val : String) (ctx : ScaleCtx) : Except String String :=
  let t := trimChars val
  if t = "" then Except.ok val
  else
    let (numPart, unit) := splitNumAndUnit t
    if numPart = "" then Except.ok val
    else
      let unit := trimChars unit
      if unit = "%" then Except.ok val
      else if !isSupportedUnit unit then Except.ok val
      else
        match parseF64 numPart with
        | none => Except.error ("invalid length: " ++ val)
        | some num =>
          let out := ctx.fmt (mulF num ctx.scale)
          Except.ok (if unit = "" then out else out ++ unit)

/-! ### Shared float-token recognizer (nom `recognize_float`)

`nom::number::complete::double` recognizes
`[+-]? ( digit1 ("." digit0)? | "." digit1 ) ([eE] [+-]? cut(digit1))?`;
the `cut` turns a missing exponent digit into a hard `Failure`.  (`double`
additionally accepts `inf`/`nan` literals when this recognizer returns a
recoverable error; those denote non-finite values outside the fraction model
and are omitted, see the module comment.) -/

inductive RFRes where
  | ok (raw : List Char) (rest : List Char)
  | err
  | failCut

def recognizeFloat (input : List Char) : RFRes :=
  let (sgn, r1) :=
    match input with
    | '+' :: r => ((['+'] : List Char), r)
    | '-' :: r => ((['-'] : List Char), r)
    | _ => (([] : List Char), input)
  let (d1, r2) := r1.span Char.isDigit
  let mantRes : Option (List Char × List Char) :=
    if d1 ≠ [] then
      match r2 with
      | '.' :: r3 =>
        let (d2, r4) := r3.span Char.isDigit
        some (sgn ++ d1 ++ '.' :: d2, r4)
      | _ => some (sgn ++ d1, r2)
    else
      match r2 with
      | '.' :: r3 =>
        let (d2, r4) := r3.span Char.isDigit
        if d2 = [] then none else some (sgn ++ '.' :: d2, r4)
      | _ => none
  match mantRes with
  | none => RFRes.err
  | some (mant, rest) =>
    match rest with
    | c :: r5 =>
      if c = 'e' ∨ c = 'E' then
        let (es, r6) :=
          match r5 with
          | '+' :: r => ((['+'] : List Char), r)
          | '-' :: r => ((['-'] : List Char), r)
          | _ => (([] : List Char), r5)
        let (d3, r7) := r6.span Char.isDigit
        if d3 = [] then RFRes.failCut
        else RFRes.ok (mant ++ c :: (es ++ d3)) r7
      else RFRes.ok mant rest
    | [] => RFRes.ok mant rest

/-! ### Transform algebra (src/transform.rs) -/

/-- `Transform` from src/transform.rs. -/
structure Transform where
  name : String
  params : List Frac
deriving DecidableEq

/-- Oracle for the `f64` trigonometry used by `transform_to_matrix`:
`cosD`/`sinD`/`tanD` stand for `cos`/`sin`/`tan` composed with
`to_radians` on the degree argument.  Every theorem below holds for an
arbitrary oracle. -/
structure Trig where
  cosD : Frac → Frac
  sinD : Frac → Frac
  tanD : Frac → Frac

/-- The 6-coefficient affine matrix `[a, b, c, d, e, f]`. -/
structure Mat where
  a : Frac
  b : Frac
  c : Frac
  d : Frac
  e : Frac
  f : Frac
deriving DecidableEq

/-- `mat_mul` from src/transform.rs. -/
def matMul (m1 m2 : Mat) : Mat :=
  { a := addF (mulF m1.a m2.a) (mulF m1.c m2.b)
    b := addF (mulF m1.b m2.a) (mulF m1.d m2.b)
    c := addF (mulF m1.a m2.c) (mulF m1.c m2.d)
    d := addF (mulF m1.b m2.c) (mulF m1.d m2.d)
    e := addF (addF (mulF m1.a m2.e) (mulF m1.c m2.f)) m1.e
    f := addF (addF (mulF m1.b m2.e) (mulF m1.d m2.f)) m1.f }

def matIdentity : Mat := ⟨fone, fzero, fzero, fone, fzero, fzero⟩

/-- The per-operation matrix of `transform_to_matrix` from src/transform.rs. -/
def opMatrix (tg : Trig) (t : Transform) : Except String Mat :=
  if t.name = "translate" then
    let tx := (t.params.get? 0).getD fzero
    let ty := (t.params.get? 1).getD fzero
    Except.ok ⟨fone, fzero, fzero, fone, tx, ty⟩
  else if t.name = "scale" then
    let sx := (t.params.get? 0).getD fone
    let sy := (t.params.get? 1).getD sx
    Except.ok ⟨sx, fzero, fzero, sy, fzero, fzero⟩
  else if t.name = "rotate" then
    let angle := (t.params.get? 0).getD fzero
    let cosv := tg.cosD angle
    let sinv := tg.sinD angle
    if t.params.length ≥ 3 then
      let cx := (t.params.get? 1).getD fzero
      let cy := (t.params.get? 2).getD fzero
      Except.ok (matMul ⟨fone, fzero, fzero, fone, cx, cy⟩
        (matMul ⟨cosv, sinv, negF sinv, cosv, fzero, fzero⟩
          ⟨fone, fzero, fzero, fone, negF cx, negF cy⟩))
    else Except.ok ⟨cosv, sinv, negF sinv, cosv, fzero, fzero⟩
  else if t.name = "skewX" then
    Except.ok ⟨fone, fzero, tg.tanD ((t.params.get? 0).getD fzero), fone, fzero, fzero⟩
  else if t.name = "skewY" then
    Except.ok ⟨fone, tg.tanD ((t.params.get? 0).getD fzero), fzero, fone, fzero, fzero⟩
  else if t.name = "matrix" then
    if t.params.length < 6 then
      Except.error ("matrix() requires 6 parameters, got " ++ toString t.params.length)
    else
      Except.ok ⟨(t.params.get? 0).getD fzero, (t.params.get? 1).getD fzero,
        (t.params.get? 2).getD fzero, (t.params.get? 3).getD fzero,
        (t.params.get? 4).getD fzero, (t.params.get? 5).getD fzero⟩
  else Except.error ("unsupported transform: " ++ t.name)

def transformToMatrixAux (tg : Trig) : Mat → List Transform → Except String Mat
  | m, [] => Except.ok m
  | m, t :: ts =>
    match opMatrix tg t with
    | Except.error msg => Except.error msg
    | Except.ok mi => transformToMatrixAux tg (matMul m mi) ts

/-- `transform_to_matrix` from src/transform.rs: left fold of `mat_mul`
starting from the identity. -/
def transformToMatrix (tg : Trig) (list : List Transform) : Except String Mat :=
  transformToMatrixAux tg matIdentity list

/-- `clean_matrix_value` from src/transform.rs: snap magnitudes below `1e-12`
to exactly zero. -/
def cleanMatrixValue (v : Frac) : Frac :=
  if ltF (absF v) ⟨1, Int.ofNat (tenPow 12)⟩ then fzero else v

/-- The `matrix(...)` output of `scale_transform_value`: every coefficient
multiplied by the scale, snapped, then formatted. -/
def renderMatrixScaled (m : Mat) (scale : Frac) (precision : Nat) : String :=
  "matrix(" ++ fmtNum (cleanMatrixValue (mulF m.a scale)) precision ++
  "," ++ fmtNum (cleanMatrixValue (mulF m.b scale)) precision ++
  "," ++ fmtNum (cleanMatrixValue (mulF m.c scale)) precision ++
  "," ++ fmtNum (cleanMatrixValue (mulF m.d scale)) precision ++
  "," ++ fmtNum (cleanMatrixValue (mulF m.e scale)) precision ++
  "," ++ fmtNum (cleanMatrixValue (mulF m.f scale)) precision ++ ")"

def joinSep (sep : String) : List String → String
  | [] => ""
  | [x] => x
  | x :: xs => x ++ sep ++ joinSep sep xs

/-! #### Transform text parser (the nom parsers of src/transform.rs) -/

inductive PRes (α : Type) where
  | ok (v : α) (rest : List Char)
  | err
  | failCut

/-- nom `space0`/`space1` match only spaces and tabs. -/
def isSpaceTab (c : Char) : Bool := c = ' ' || c = '\t'

def dropSpace (l : List Char) : List Char := l.dropWhile isSpaceTab

/-- nom `double` (on the decimal fragment): recognize then convert. -/
def parseDouble (input : List Char) : PRes Frac :=
  match recognizeFloat input with
  | RFRes.ok raw rest => PRes.ok ((parseF64Chars raw).getD fzero) rest
  | RFRes.err => PRes.err
  | RFRes.failCut => PRes.failCut

/-- `sep` from src/transform.rs: `(space0, ",", space0)` or `space1`. -/
def transformSep (input : List Char) : PRes Unit :=
  match dropSpace input with
  | ',' :: r => PRes.ok () (dropSpace r)
  | _ =>
    match input with
    | c :: r => if isSpaceTab c then PRes.ok () (r.dropWhile isSpaceTab) else PRes.err
    | [] => PRes.err

def paramsListAux : Nat → List Char → List Frac → PRes (List Frac)
  | 0, input, acc => PRes.ok acc.reverse input
  | fuel + 1, input, acc =>
    match transformSep input with
    | PRes.failCut => PRes.failCut
    | PRes.err => PRes.ok acc.reverse input
    | PRes.ok _ r1 =>
      match parseDouble r1 with
      | PRes.ok v r2 => paramsListAux fuel r2 (v :: acc)
      | PRes.err => PRes.ok acc.reverse input
      | PRes.failCut => PRes.failCut

/-- `params_list` from src/transform.rs: `separated_list0(sep, double)`
(a separator not followed by an element is left unconsumed). -/
def paramsList (input : List Char) : PRes (List Frac) :=
  match parseDouble input with
  | PRes.failCut => PRes.failCut
  | PRes.err => PRes.ok [] input
  | PRes.ok v r => paramsListAux (input.length + 1) r [v]

/-- `transform_fn` from src/transform.rs: a name, `(`, parameters, `)`,
with `space0` around the delimiters. -/
def transformFn (input : List Char) : PRes Transform :=
  let (nameCs, r1) := input.span Char.isAlpha
  if nameCs = [] then PRes.err
  else
    match dropSpace r1 with
    | '(' :: r3 =>
      match paramsList (dropSpace r3) with
      | PRes.failCut => PRes.failCut
      | PRes.err => PRes.err
      | PRes.ok ps r5 =>
        match dropSpace r5 with
        | ')' :: r7 => PRes.ok ⟨String.mk nameCs, ps⟩ r7
        | _ => PRes.err
    | _ => PRes.err

def transformListAux : Nat → List Char → List Transform → PRes (List Transform)
  | 0, input, acc => PRes.ok acc.reverse input
  | fuel + 1, input, acc =>
    match transformFn (dropSpace input) with
    | PRes.failCut => PRes.failCut
    | PRes.err => PRes.ok acc.reverse input
    | PRes.ok t rest => transformListAux fuel rest (t :: acc)

/-- `parse_transform_list` from src/transform.rs:
`all_consuming(terminated(preceded(space0, transform_list), space0))`, with
any parse failure collapsed into the `invalid transform` error. -/
def parseTransformList (input : String) : Except String (List Transform) :=
  match transformListAux (input.data.length + 1) (dropSpace input.data) [] with
  | PRes.failCut => Except.error ("invalid transform: " ++ input)
  | PRes.err => Except.error ("invalid transform: " ++ input)
  | PRes.ok list rest =>
    if dropSpace rest = [] then Except.ok list
    else Except.error ("invalid transform: " ++ input)

/-- The body of `scale_transform_value` after the empty-list early return. -/
def scaleTransformNonEmpty (tg : Trig) (list : List Transform) (scale : Frac)
    (precision : Nat) : Except String String :=
  let hasNonTranslate := list.any (fun t => t.name != "translate")
  let matrixBranch :=
    (transformToMatrix tg list).map (fun m => renderMatrixScaled m scale precision)
  if hasNonTranslate then
    match list with
    | [t] =>
      if t.name == "scale" then
        let sx := (t.params.get? 0).getD fone
        let sy := (t.params.get? 1).getD sx
        if t.params.length ≥ 2 then
          Except.ok ("scale(" ++ fmtNum (mulF sx scale) precision ++ "," ++
            fmtNum (mulF sy scale) precision ++ ")")
        else
          Except.ok ("scale(" ++ fmtNum (mulF sx scale) precision ++ ")")
      else matrixBranch
    | _ => matrixBranch
  else
    Except.ok (joinSep " " (list.filterMap (fun t =>
      if t.name == "translate" then
        let tx := (t.params.get? 0).getD fzero
        let ty := (t.params.get? 1).getD fzero
        if t.params.length ≥ 2 then
          some ("translate(" ++ fmtNum (mulF tx scale) precision ++ "," ++
            fmtNum (mulF ty scale) precision ++ ")")
        else some ("translate(" ++ fmtNum (mulF tx scale) precision ++ ")")
      else none)))

/-- `scale_transform_value` from src/transform.rs. -/
def scaleTransformValue (tg : Trig) (input : String) (scale : Frac)
    (precision : Nat) : Except String String :=
  match parseTransformList input with
  | Except.error e => Except.error ("parse transform: " ++ e)
  | Except.ok list =>
    if list.isEmpty then Except.ok input
    else scaleTransformNonEmpty tg list scale precision

/-- `scale_transform_all` from src/svg.rs (a thin wrapper). -/
def scaleTransformAll (tg : Trig) (v : String) (scale : Frac) (precision : Nat) :
    Except String String :=
  scaleTransformValue tg v scale precision

/-- `has_non_translate_transform` from src/svg.rs. -/
def hasNonTranslateTransform (input : String) : Except String Bool :=
  (parseTransformList input).map (fun list => list.any (fun t => t.name != "translate"))

/-! ### Path grammar scaler (src/path.rs) -/

/-- `Part` from src/path.rs. -/
inductive Part where
  | sep (s : String)
  | cmd (c : Char)
  | num (raw : String) (val : Frac)
deriving DecidableEq

/-- `is_sep_char` from src/path.rs. -/
def isSepChar (c : Char) : Bool :=
  !c.isAlpha && c ≠ '-' && c ≠ '+' && c ≠ '.' && !c.isDigit

/-- The path command alphabet `MmZzLlHhVvCcSsQqTtAa`. -/
def isPathCmdChar (c : Char) : Bool :=
  c = 'M' || c = 'm' || c = 'Z' || c = 'z' || c = 'L' || c = 'l' ||
  c = 'H' || c = 'h' || c = 'V' || c = 'v' || c = 'C' || c = 'c' ||
  c = 'S' || c = 's' || c = 'Q' || c = 'q' || c = 'T' || c = 't' ||
  c = 'A' || c = 'a'

/-- One iteration of `alt((parse_cmd, parse_num, parse_sep))`: a `Failure`
raised by the `cut` inside `parse_num` aborts the whole parse (nom remaps its
error input to the position where the number started). -/
inductive PathStep where
  | tok (p : Part) (rest : List Char)
  | stop
  | fail

def pathStep (input : List Char) : PathStep :=
  match input with
  | [] => PathStep.stop
  | c :: rest =>
    if isPathCmdChar c then PathStep.tok (Part.cmd c) rest
    else
      match recognizeFloat input with
      | RFRes.ok raw rest2 =>
        PathStep.tok (Part.num (String.mk raw) ((parseF64Chars raw).getD fzero)) rest2
      | RFRes.failCut => PathStep.fail
      | RFRes.err =>
        let (s, rest3) := input.span isSepChar
        if s = [] then PathStep.stop else PathStep.tok (Part.sep (String.mk s)) rest3

/-- Result of `parse_parts` (`many0` of the alternation): either the collected
parts with the unconsumed remainder, or a hard `Failure` carrying the input at
the failing token. -/
inductive PP where
  | ok (parts : List Part) (rest : List Char)
  | fail (restAtFailure : List Char)

def parsePartsAux : Nat → List Char → List Part → PP
  | 0, input, acc => PP.ok acc.reverse input
  | fuel + 1, input, acc =>
    match pathStep input with
    | PathStep.stop => PP.ok acc.reverse input
    | PathStep.fail => PP.fail input
    | PathStep.tok p rest => parsePartsAux fuel rest (p :: acc)

/-- `parse_parts` from src/path.rs. -/
def parseParts (input : List Char) : PP :=
  parsePartsAux (input.length + 1) input []

/-- `classify_path_error` from src/path.rs. -/
def classifyPathError (input : List Char) (pos : Nat) : String :=
  if pos ≥ input.length then "unexpected end of input"
  else
    match input.drop pos with
    | [] => "unexpected end of input"
    | c :: _ =>
      if c.isAlpha && !isPathCmdChar c then "invalid command"
      else if c.isDigit || c = '-' || c = '+' || c = '.' || c = 'e' || c = 'E' then
        "invalid number"
      else if c.isWhitespace || c = ',' then "invalid separator"
      else "unexpected token"

/-- The data carried by the error string `format_path_error` builds:
`"invalid path data at char {char_index} (byte {pos}) near {snippet}: {reason}"`.
char index and byte offset coincide on ASCII input (the model counts
characters for both). -/
structure PathError where
  charIndex : Nat
  byteOffset : Nat
  snippet : String
  reason : String
deriving DecidableEq

/-- `format_path_error` from src/path.rs. -/
def formatPathError (input : List Char) (pos : Nat) : PathError :=
  { charIndex := (input.take pos).length
    byteOffset := pos
    snippet := String.mk ((input.take (min (pos + 10) input.length)).drop (pos - 10))
    reason := classifyPathError input pos }

/-- Rendering of `format_path_error` used when a path error is wrapped into a
document-level error message (the source wraps the snippet in single quotes;
the model uses plain juxtaposition). -/
def pathErrorMessage (pe : PathError) : String :=
  "invalid path data at char " ++ toString pe.charIndex ++ " (byte " ++
    toString pe.byteOffset ++ ") near " ++ pe.snippet ++ ": " ++ pe.reason

/-- The rewriting loop of `scale_path`: commands reset the parameter index,
separators are copied, numbers are scaled except arc parameters 2, 3, 4
(x-axis-rotation and the two flags), which are copied verbatim. -/
def scalePartsLoop (ctx : ScaleCtx) : List Part → Option Char → Nat → String → String
  | [], _, _, out => out
  | Part.sep s :: ps, cmdC, i, out => scalePartsLoop ctx ps cmdC i (out ++ s)
  | Part.cmd c :: ps, _, _, out => scalePartsLoop ctx ps (some c) 0 (out.push c)
  | Part.num raw v :: ps, cmdC, i, out =>
    let shouldScale :=
      match cmdC with
      | some c =>
        if c = 'A' || c = 'a' then
          let idx := i % 7
          idx == 0 || idx == 1 || idx == 5 || idx == 6
        else true
      | none => true
    let out := if shouldScale then out ++ ctx.fmt (mulF v ctx.scale) else out ++ raw
    scalePartsLoop ctx ps cmdC (i + 1) out

/-- `scale_path` from src/path.rs.  The source returns the formatted error
string; the model returns the `PathError` record that string is built from. -/
def scalePath (d : String) (ctx : ScaleCtx) : Except PathError String :=
  match parseParts d.data with
  | PP.fail restAt =>
    Except.error (formatPathError d.data (d.data.length - restAt.length))
  | PP.ok parts rest =>
    if rest.isEmpty then Except.ok (scalePartsLoop ctx parts none 0 "")
    else Except.error (formatPathError d.data (d.data.length - rest.length))

/-! ### Style cascade resolver (src/svg.rs) -/

/-- `SimpleSelector` from src/svg.rs. -/
structure SimpleSelector where
  element : Option String
  id : Option String
  classes : List String
deriving DecidableEq

/-- `SelectorRelation` from src/svg.rs. -/
inductive SelectorRelation where
  | descendant
  | child
deriving DecidableEq

/-- `StyleSelector` from src/svg.rs. -/
structure StyleSelector where
  ancestor : Option SimpleSelector
  relation : Option SelectorRelation
  target : SimpleSelector
deriving DecidableEq

/-- `StyleRule` from src/svg.rs (`u32` counters modelled as `Nat`). -/
structure StyleRule where
  selector : StyleSelector
  props : List (String × String)
  specificity : Nat
  order : Nat
deriving DecidableEq

/-- `selector_specificity_simple` from src/svg.rs. -/
def selectorSpecificitySimple (sel : SimpleSelector) : Nat :=
  let score := 0
  let score := if sel.id.isSome then score + 100 else score
  let score := if !sel.classes.isEmpty then score + 10 * sel.classes.length else score
  let score := if sel.element.isSome then score + 1 else score
  score

/-- `selector_specificity` from src/svg.rs. -/
def selectorSpecificity (sel : StyleSelector) : Nat :=
  let score := selectorSpecificitySimple sel.target
  match sel.ancestor with
  | some anc => score + selectorSpecificitySimple anc
  | none => score

/-- A node as seen by selector matching: its tag and attributes.  (roxmltree
node handles expose exactly these through `node_tag`/`node_id`/
`node_class_list`.) -/
structure ElemInfo where
  tag : String
  attrs : List (String × String)
deriving DecidableEq

def attrLookup (attrs : List (String × String)) (name : String) : Option String :=
  (attrs.find? (fun kv => kv.1 == name)).map (fun kv => kv.2)

/-- `node_id` from src/svg.rs. -/
def nodeIdOf (n : ElemInfo) : String := (attrLookup n.attrs "id").getD ""

/-- Rust `str::split_whitespace`. -/
def splitWsAux : List Char → List Char → List String
  | [], acc => if acc = [] then [] else [String.mk acc.reverse]
  | c :: cs, acc =>
    if c.isWhitespace then
      if acc = [] then splitWsAux cs []
      else String.mk acc.reverse :: splitWsAux cs []
    else splitWsAux cs (c :: acc)

def splitWhitespace (s : String) : List String := splitWsAux s.data []

/-- `node_class_list` from src/svg.rs. -/
def nodeClassList (n : ElemInfo) : List String :=
  match attrLookup n.attrs "class" with
  | some s => splitWhitespace s
  | none => []

/-- `matches_simple_selector` from src/svg.rs. -/
def matchesSimpleSelector (sel : SimpleSelector) (n : ElemInfo) : Bool :=
  (match sel.element with
   | some el => el == n.tag
   | none => true) &&
  (match sel.id with
   | some i => i == nodeIdOf n
   | none => true) &&
  sel.classes.all (fun cls => (nodeClassList n).contains cls)

/-- `matches_selector` from src/svg.rs.  `ancestors` is the chain of element
ancestors, innermost first (a non-element parent in roxmltree corresponds to
an empty chain). -/
def matchesSelector (sel : StyleSelector) (n : ElemInfo)
    (ancestors : List ElemInfo) : Bool :=
  if !matchesSimpleSelector sel.target n then false
  else
    match sel.ancestor with
    | none => true
    | some anc =>
      match sel.relation with
      | some SelectorRelation.child =>
        match ancestors with
        | parent :: _ => matchesSimpleSelector anc parent
        | [] => false
      | _ => ancestors.any (fun a => matchesSimpleSelector anc a)

/-- `merge_style_props` step: replace the value in place if the key exists,
otherwise append. -/
def setProp : List (String × String) → String → String → List (String × String)
  | [], k, v => [(k, v)]
  | (bk, bv) :: rest, k, v =>
    if bk == k then (k, v) :: rest else (bk, bv) :: setProp rest k v

/-- `merge_style_props` from src/svg.rs. -/
def mergeStyleProps (base : List (String × String))
    (other : List (String × String)) : List (String × String) :=
  other.foldl (fun b kv => setProp b kv.1 kv.2) base

/-- Sort key order used by `collect_matching_style_props`:
`(specificity, order)` ascending. -/
def ruleKeyLe (a b : StyleRule) : Bool :=
  Nat.blt a.specificity b.specificity ||
    (a.specificity == b.specificity && Nat.ble a.order b.order)

/-- Stable insertion used to model `Vec::sort_by_key` (which is stable): an
element is inserted after all existing elements whose key is not greater. -/
def insertRule (r : StyleRule) : List StyleRule → List StyleRule
  | [] => [r]
  | x :: xs => if ruleKeyLe x r then x :: insertRule r xs else r :: x :: xs

def sortRules (l : List StyleRule) : List StyleRule :=
  l.foldl (fun acc r => insertRule r acc) []

/-- `collect_matching_style_props` from src/svg.rs: filter the matching rules,
sort stably by `(specificity, order)`, merge in that order (later rules
overwrite earlier ones for the same key). -/
def collectMatchingStyleProps (rules : List StyleRule) (n : ElemInfo)
    (ancestors : List ElemInfo) : List (String × String) :=
  let matched := rules.filter (fun r => matchesSelector r.selector n ancestors)
  (sortRules matched).foldl (fun props r => mergeStyleProps props r.props) []

/-- Split a character list at every occurrence of `c`. -/
def splitOnCharAux (c : Char) : List Char → List Char → List (List Char)
  | [], acc => [acc.reverse]
  | x :: xs, acc =>
    if x = c then acc.reverse :: splitOnCharAux c xs []
    else splitOnCharAux c xs (x :: acc)

def splitOnChar (c : Char) (s : List Char) : List (List Char) :=
  splitOnCharAux c s []

/-- `parse_style` from src/svg.rs: split on `;`, then each entry at its first
`:`; entries with an empty key or value are skipped. -/
def parseStyle (input : String) : List (String × String) :=
  (splitOnChar ';' input.data).filterMap (fun part =>
    let partS := trimChars (String.mk part)
    if partS = "" then none
    else
      let (k, rest) := partS.data.span (fun c => c != ':')
      let key := trimChars (String.mk k)
      let val := trimChars (String.mk (match rest with
        | _ :: r => r
        | [] => []))
      if key = "" ∨ val = "" then none else some (key, val))

/-- `serialize_style` from src/svg.rs. -/
def serializeStyle (props : List (String × String)) : String :=
  joinSep "; " (props.map (fun kv => kv.1 ++ ":" ++ kv.2))

/-! ### Scope-aware tree walker (src/svg.rs `walk_impl`) -/

def asciiLower (c : Char) : Char :=
  if 'A' ≤ c ∧ c ≤ 'Z' then Char.ofNat (c.toNat + 32) else c

/-- Rust `str::eq_ignore_ascii_case`. -/
def eqIgnoreAsciiCase (x y : String) : Bool :=
  x.data.map asciiLower == y.data.map asciiLower

/-- The direct-length style keys of `scale_style_value` (src/svg.rs lines
519-522; note: unlike the attribute path, `fx` and `fy` are absent). -/
def styleLengthKeys : List String :=
  ["stroke-width", "width", "height", "x", "y", "z", "cx", "cy", "r", "rx",
   "ry", "x1", "y1", "x2", "y2", "font-size", "letter-spacing",
   "stroke-dashoffset", "dx", "dy", "markerWidth", "markerHeight", "refX",
   "refY", "surfaceScale", "pointsAtX", "pointsAtY", "pointsAtZ"]

/-- `scale_style_value` from src/svg.rs. -/
def scaleStyleValue (tg : Trig) (key val : String) (ctx : ScaleCtx)
    (skipScale hasNonScalingStroke : Bool) : Except String String :=
  if key == "transform" then
    (scaleTransformAll tg val ctx.scale ctx.precision).mapError
      (fun e => "transform scale failed in style: " ++ val ++ ": " ++ e)
  else if styleLengthKeys.contains key then
    if skipScale then Except.ok val
    else if key == "stroke-width" && hasNonScalingStroke && !ctx.fixStroke then
      Except.ok val
    else
      (scaleLengthValue val ctx).mapError
        (fun e => "invalid " ++ key ++ " in style: " ++ val ++ ": " ++ e)
  else if key == "stroke-dasharray" then
    if skipScale then Except.ok val
    else if eqIgnoreAsciiCase (trimChars val) "none" then Except.ok val
    else Except.ok (scaleNumberList val ctx)
  else if key == "stdDeviation" || key == "radius" || key == "kernelUnitLength" then
    if skipScale then Except.ok val
    else Except.ok (scaleNumberList val ctx)
  else if key == "baseFrequency" then
    if skipScale then Except.ok val
    else Except.ok (scaleNumberListInverse val ctx)
  else Except.ok val

/-- The direct-length attribute keys of the `walk_impl` match (src/svg.rs lines
714-718), including `fx` and `fy`. -/
def attrLengthKeys : List String :=
  ["stroke-width", "width", "height", "x", "y", "z", "cx", "cy", "r", "rx",
   "ry", "x1", "y1", "x2", "y2", "font-size", "letter-spacing",
   "stroke-dashoffset", "fx", "fy", "dx", "dy", "markerWidth", "markerHeight",
   "refX", "refY", "surfaceScale", "pointsAtX", "pointsAtY", "pointsAtZ"]

/-- The numeric-list attribute keys of the `walk_impl` match (src/svg.rs line
739), including `scale`. -/
def attrListKeys : List String :=
  ["stroke-dasharray", "stdDeviation", "radius", "scale", "kernelUnitLength"]

/-- Element locator used in `walk_impl` error contexts. -/
def errLoc (tagName nodeIdStr : String) : String :=
  if nodeIdStr = "" then "<" ++ tagName ++ ">"
  else "<" ++ tagName ++ " id=\"" ++ nodeIdStr ++ "\">"

def splitWsMapM (ctx : ScaleCtx) (tagName nodeIdStr : String) :
    List String → Except String (List String)
  | [] => Except.ok []
  | w :: ws =>
    match parseF64 w with
    | none => Except.error ("invalid viewBox on " ++ errLoc tagName nodeIdStr ++ ": " ++ w)
    | some val =>
      (splitWsMapM ctx tagName nodeIdStr ws).map
        (fun rest => ctx.fmt (mulF val ctx.scale) :: rest)

/-- The `viewBox` arm of the `walk_impl` match: every whitespace-separated
number scaled and re-joined with single spaces. -/
def scaleViewBox (ctx : ScaleCtx) (tagName nodeIdStr v : String) :
    Except String String :=
  (splitWsMapM ctx tagName nodeIdStr (splitWhitespace v)).map (joinSep " ")

/-- The per-attribute dispatch of `walk_impl` (the big `match k.as_str()`,
src/svg.rs lines 691-812), extracted as a function of the flags computed for
the element. -/
def scaleAttrValue (tg : Trig) (ctx : ScaleCtx) (tagName nodeIdStr : String)
    (ancNT hasNT skipSelf hasNSS : Bool) (k v : String) : Except String String :=
  if k == "d" then
    if ancNT || hasNT || skipSelf then Except.ok v
    else
      (scalePath v ctx).mapError
        (fun pe => "scale path failed on " ++ errLoc tagName nodeIdStr ++ ": " ++
          pathErrorMessage pe)
  else if attrLengthKeys.contains k then
    if ancNT || hasNT || skipSelf then Except.ok v
    else if k == "stroke-width" && hasNSS && !ctx.fixStroke then Except.ok v
    else
      (scaleLengthValue v ctx).mapError
        (fun e => "invalid " ++ k ++ " on " ++ errLoc tagName nodeIdStr ++ ": " ++ e)
  else if attrListKeys.contains k then
    if ancNT || hasNT || skipSelf then Except.ok v
    else if eqIgnoreAsciiCase (trimChars v) "none" then Except.ok v
    else Except.ok (scaleNumberList v ctx)
  else if k == "baseFrequency" then
    if ancNT || hasNT || skipSelf then Except.ok v
    else Except.ok (scaleNumberListInverse v ctx)
  else if k == "gradientTransform" || k == "patternTransform" then
    if skipSelf then Except.ok v
    else
      (scaleTransformAll tg v ctx.scale ctx.precision).mapError
        (fun e => "transform scale failed on " ++ errLoc tagName nodeIdStr ++ ": " ++ e)
  else if k == "viewBox" then scaleViewBox ctx tagName nodeIdStr v
  else if k == "transform" then
    (scaleTransformAll tg v ctx.scale ctx.precision).mapError
      (fun e => "transform scale failed on " ++ errLoc tagName nodeIdStr ++ ": " ++ e)
  else Except.ok v

/-- The attribute loop of `walk_impl`: `style` is skipped (re-emitted from the
merged style map), `vector-effect` is skipped when `fix_stroke` is set, every
other attribute is rewritten by the dispatch. -/
def processAttrs (tg : Trig) (ctx : ScaleCtx) (tagName nodeIdStr : String)
    (ancNT hasNT skipSelf hasNSS : Bool) :
    List (String × String) → Except String (List (String × String))
  | [] => Except.ok []
  | (k, v) :: rest =>
    if k == "style" then
      processAttrs tg ctx tagName nodeIdStr ancNT hasNT skipSelf hasNSS rest
    else if ctx.fixStroke && k == "vector-effect" then
      processAttrs tg ctx tagName nodeIdStr ancNT hasNT skipSelf hasNSS rest
    else
      match scaleAttrValue tg ctx tagName nodeIdStr ancNT hasNT skipSelf hasNSS k v with
      | Except.error e => Except.error e
      | Except.ok nv =>
        (processAttrs tg ctx tagName nodeIdStr ancNT hasNT skipSelf hasNSS rest).map
          (fun r => (k, nv) :: r)

/-- The style-property loop of `walk_impl`: `vector-effect` is dropped when
`fix_stroke` is set, everything else is rewritten by `scale_style_value`. -/
def processStyleProps (tg : Trig) (ctx : ScaleCtx) (skipScale hasNSS : Bool) :
    List (String × String) → Except String (List (String × String))
  | [] => Except.ok []
  | (sk, sv) :: rest =>
    if ctx.fixStroke && sk == "vector-effect" then
      processStyleProps tg ctx skipScale hasNSS rest
    else
      match scaleStyleValue tg sk sv ctx skipScale hasNSS with
      | Except.error e => Except.error e
      | Except.ok scaled =>
        (processStyleProps tg ctx skipScale hasNSS rest).map
          (fun r => (sk, scaled) :: r)

/-- The unit-defining attribute consulted per tag (src/svg.rs lines 572-586). -/
def unitsAttrOf (tagName : String) (attrs : List (String × String)) : Option String :=
  if tagName == "clipPath" then attrLookup attrs "clipPathUnits"
  else if tagName == "mask" then attrLookup attrs "maskUnits"
  else if tagName == "linearGradient" || tagName == "radialGradient" then
    attrLookup attrs "gradientUnits"
  else if tagName == "pattern" then attrLookup attrs "patternUnits"
  else if tagName == "filter" then attrLookup attrs "filterUnits"
  else if tagName == "marker" then attrLookup attrs "markerUnits"
  else none

/-- XML node model: elements, text, and other node kinds (comments, processing
instructions), which the walker's catch-all arm emits nothing for. -/
inductive XNode where
  | elem (tag : String) (attrs : List (String × String)) (children : List XNode)
  | text (s : String)
  | other

/-- `walk_impl` from src/svg.rs, over a sibling list (the element branch is
verbatim; writer calls are modelled by building the output node's attribute
list in write order: rewritten original attributes, then the serialized style).
`fuel` bounds the recursion depth and sibling count; any fuel larger than the
total node count gives the walk's value. -/
def walkImpl (tg : Trig) (ctx : ScaleCtx) (rules : List StyleRule) :
    Nat → List ElemInfo → Bool → Bool → List XNode → Except String (List XNode)
  | _, _, _, _, [] => Except.ok []
  | 0, _, _, _, _ :: _ => Except.error "recursion fuel exhausted"
  | fuel + 1, ancestors, ancNT, ancSkip, n :: ns => do
    let heads ←
      match n with
      | XNode.text s => Except.ok [XNode.text s]
      | XNode.other => Except.ok []
      | XNode.elem tagName attrs children => do
        let nodeIdStr := (attrLookup attrs "id").getD ""
        let self : ElemInfo := ⟨tagName, attrs⟩
        let units := unitsAttrOf tagName attrs
        let skipScaleDueToUnits := units == some "objectBoundingBox" ||
          (tagName == "marker" && (units == some "strokeWidth" || units == none))
        let skipChildrenDueToContentUnits :=
          if tagName == "pattern" then
            attrLookup attrs "patternContentUnits" == some "objectBoundingBox"
          else if tagName == "filter" then
            attrLookup attrs "primitiveUnits" == some "objectBoundingBox"
          else if tagName == "marker" then
            attrLookup attrs "markerUnits" == some "strokeWidth"
          else false
        let ruleStyleProps := collectMatchingStyleProps rules self ancestors
        let styleValue := (attrLookup attrs "style").getD ""
        let mergedProps := mergeStyleProps ruleStyleProps (parseStyle styleValue)
        let transformAttr := attrLookup attrs "transform"
        let hasStyleTransform := mergedProps.any (fun kv => kv.1 == "transform")
        let hasTransform := transformAttr.isSome || hasStyleTransform
        let transformValue := transformAttr.getD ""
        let styleTransformValue :=
          ((mergedProps.find? (fun kv => kv.1 == "transform")).map (fun kv => kv.2)).getD ""
        let hasNSS := (attrLookup attrs "vector-effect" == some "non-scaling-stroke") ||
          mergedProps.any (fun kv => kv.1 == "vector-effect" && kv.2 == "non-scaling-stroke")
        let hasNT ←
          if hasTransform then do
            let b1 ←
              if transformValue ≠ "" then
                (hasNonTranslateTransform transformValue).mapError
                  (fun e => "transform parse failed on " ++ errLoc tagName nodeIdStr ++ ": " ++ e)
              else pure false
            let b2 ←
              if styleTransformValue ≠ "" then
                (hasNonTranslateTransform styleTransformValue).mapError
                  (fun e => "transform parse failed in style on " ++
                    errLoc tagName nodeIdStr ++ ": " ++ e)
              else pure false
            pure (b1 || b2)
          else pure false
        let skipSelf := ancSkip || skipScaleDueToUnits
        let childSkip :=
          if tagName == "filter" then ancSkip || skipChildrenDueToContentUnits
          else skipSelf || skipChildrenDueToContentUnits
        let newAttrs ← processAttrs tg ctx tagName nodeIdStr ancNT hasNT skipSelf hasNSS attrs
        let styleAttrs ←
          if mergedProps.isEmpty then pure []
          else do
            let newProps ←
              processStyleProps tg ctx (skipSelf || ancNT || hasNT) hasNSS mergedProps
            if newProps.isEmpty then pure ([] : List (String × String))
            else pure [("style", serializeStyle newProps)]
        let kids ←
          walkImpl tg ctx rules fuel (self :: ancestors) (ancNT || hasNT) childSkip children
        Except.ok [XNode.elem tagName (newAttrs ++ styleAttrs) kids]
    let rest ← walkImpl tg ctx rules fuel ancestors ancNT ancSkip ns
    Except.ok (heads ++ rest)

/-- `walk_impl` applied to a single node. -/
def walkNode (tg : Trig) (ctx : ScaleCtx) (rules : List StyleRule) (fuel : Nat)
    (ancestors : List ElemInfo) (ancNT ancSkip : Bool) (n : XNode) :
    Except String (List XNode) :=
  walkImpl tg ctx rules fuel ancestors ancNT ancSkip [n]

/-! ### Concrete instances used by the theorems below -/

/-- A concrete trigonometry oracle (the claims below never depend on the
oracle's values). -/
def trigZero : Trig := ⟨fun _ => fzero, fun _ => fzero, fun _ => fzero⟩

/-- Lookup of a property value in a merged style map. -/
def lookupProp (k : String) (props : List (String × String)) : Option String :=
  (props.find? (fun kv => kv.1 == k)).map (fun kv => kv.2)

/-- `rect` tag selector of the cascade scenario. -/
def selTag : StyleSelector := ⟨none, none, ⟨some "rect", none, []⟩⟩

/-- `.big` class selector of the cascade scenario. -/
def selClass : StyleSelector := ⟨none, none, ⟨none, none, ["big"]⟩⟩

/-- `#solo` id selector of the cascade scenario. -/
def selId : StyleSelector := ⟨none, none, ⟨none, some "solo", []⟩⟩

/-- The element `<rect id="solo" class="big"/>` of the cascade scenario. -/
def soloElem : ElemInfo := ⟨"rect", [("id", "solo"), ("class", "big")]⟩

/-- Build stylesheet rules from selector/property pairs, assigning source
order by position (as `parse_css_rules` does with one rule per block). -/
def mkRules (l : List (StyleSelector × List (String × String))) : List StyleRule :=
  l.enum.map (fun p => ⟨p.2.1, p.2.2, selectorSpecificity p.2.1, p.1⟩)

/-- The three cascade rules `rect {width:20}`, `.big {width:30}`,
`#solo {width:40}` in all six declaration orders. -/
def cascadeOrders : List (List (StyleSelector × List (String × String))) :=
  let tR := (selTag, [("width", "20")])
  let cR := (selClass, [("width", "30")])
  let iR := (selId, [("width", "40")])
  [[tR, cR, iR], [tR, iR, cR], [cR, tR, iR], [cR, iR, tR], [iR, tR, cR], [iR, cR, tR]]

/-! ### Helper lemmas -/

theorem mapError_ok_iff {ε ε₂ α : Type} (f : ε → ε₂) (e : Except ε α) (w : α) :
    Except.mapError f e = Except.ok w ↔ e = Except.ok w := by
  cases e <;> simp [Except.mapError]

theorem toOption_mapError {ε ε₂ α : Type} (f : ε → ε₂) (e : Except ε α) :
    (Except.mapError f e).toOption = e.toOption := by
  cases e <;> rfl

/-- The inverse-scaling loop is the plain loop run with the reciprocal scale
(the source duplicates the loop body with a rebuilt `ScaleCtx`). -/
theorem numListLoopInv_eq (ctx : ScaleCtx) (inv : Frac) :
    ∀ cs out buf, numListLoopInv ctx inv cs out buf =
      numListLoop ⟨inv, ctx.precision, ctx.fixStroke⟩ cs out buf := by
  intro cs
  induction cs with
  | nil => intro out buf; rfl
  | cons c cs ih =>
    intro out buf
    have hfl : ∀ o b, flushBufInv ctx inv o b =
        flushBuf ⟨inv, ctx.precision, ctx.fixStroke⟩ o b := fun _ _ => rfl
    by_cases h : (isNumChar c || c.isAlpha) = true <;>
      simp [numListLoopInv, numListLoop, h, ih, hfl]

/-- Exactness of half-even rounding on values that are already integers. -/
theorem rhe_exact (q : Frac) (hden : 0 < q.den) (hdvd : q.den ∣ q.num) :
    rhe q * q.den = q.num := by
  obtain ⟨c, hc⟩ := hdvd
  have hfdiv : Int.fdiv q.num q.den = c := by
    rw [hc, mul_comm]
    exact Int.mul_fdiv_cancel c (ne_of_gt hden)
  have hr : ltF (subF q (ofIntF c)) halfF = true := by
    simp only [ltF, subF, ofIntF, halfF, decide_eq_true_eq]
    have hz : q.num * 1 - c * q.den = 0 := by rw [hc]; ring
    rw [hz]
    nlinarith [hden]
  have hrhe : rhe q = c := by
    simp [rhe, floorF, hfdiv, hr]
  rw [hrhe, hc]
  ring

/-! ### The claims -/

/-- Claim C1: for every transform list containing at least one non-translate
operation and not consisting of exactly one scale operation,
`scale_transform_value` composes the whole list left-to-right into a single
affine matrix, multiplies all six coefficients uniformly by the scale factor,
snaps magnitudes below `1e-12` to zero, formats each coefficient with the
numeric formatter, and emits `matrix(a,b,c,d,e,f)`; in particular
`transform="matrix(2,0,0,2,10,20)"` at scale `0.5` yields
`"matrix(1,0,0,1,5,10)"`. -/
theorem c1_nontranslate_list_composed_to_matrix (tg : Trig) (scale : Frac)
    (precision : Nat) (list : List Transform)
    (h1 : ∃ t ∈ list, t.name ≠ "translate")
    (h2 : ¬ (list.length = 1 ∧ (list.head?.map Transform.name) = some "scale")) :
    scaleTransformNonEmpty tg list scale precision =
      (transformToMatrix tg list).map (fun m => renderMatrixScaled m scale precision) ∧
    scaleTransformValue tg "matrix(2,0,0,2,10,20)" ⟨1, 2⟩ 4 =
      Except.ok "matrix(1,0,0,1,5,10)" := by
  constructor
  · obtain ⟨t0, ht0, hname⟩ := h1
    have hany : list.any (fun t => t.name != "translate") = true :=
      List.any_eq_true.mpr ⟨t0, ht0, by simpa [bne_iff_ne] using hname⟩
    match list, ht0, hany, h2 with
    | [t], ht0, hany, h2 =>
      have hscale : (t.name == "scale") = false := by
        rcases hbe : t.name == "scale" with _ | _
        · rfl
        · exact absurd ⟨rfl, by simp [eq_of_beq hbe]⟩ h2
      simp [scaleTransformNonEmpty, hany, hscale]
    | t1 :: t2 :: ts, ht0, hany, h2 =>
      simp [scaleTransformNonEmpty, hany]
  · rfl

/-- Witness for C1 at the concrete list `[matrix(2,0,0,2,10,20)]`. -/
theorem c1_witness_concrete :
    scaleTransformNonEmpty trigZero
        [⟨"matrix", [⟨2,1⟩, ⟨0,1⟩, ⟨0,1⟩, ⟨2,1⟩, ⟨10,1⟩, ⟨20,1⟩]⟩] ⟨1, 2⟩ 4 =
      (transformToMatrix trigZero
          [⟨"matrix", [⟨2,1⟩, ⟨0,1⟩, ⟨0,1⟩, ⟨2,1⟩, ⟨10,1⟩, ⟨20,1⟩]⟩]).map
        (fun m => renderMatrixScaled m ⟨1, 2⟩ 4) ∧
    scaleTransformValue trigZero "matrix(2,0,0,2,10,20)" ⟨1, 2⟩ 4 =
      Except.ok "matrix(1,0,0,1,5,10)" :=
  c1_nontranslate_list_composed_to_matrix trigZero ⟨1, 2⟩ 4
    [⟨"matrix", [⟨2,1⟩, ⟨0,1⟩, ⟨0,1⟩, ⟨2,1⟩, ⟨10,1⟩, ⟨20,1⟩]⟩]
    ⟨⟨"matrix", [⟨2,1⟩, ⟨0,1⟩, ⟨0,1⟩, ⟨2,1⟩, ⟨10,1⟩, ⟨20,1⟩]⟩, by decide, by decide⟩
    (by decide)

/-- Claim C2: `scale_path` multiplies every number by the scale factor and
reformats it, except under an Arc command (`A`/`a`): of the repeating 7 arc
parameters only indices 0, 1, 5, 6 are scaled and indices 2, 3, 4 are copied
into the output verbatim; in particular `"M10 10 A 5 5 0 0 1 20 20"` at
scale 2 yields `"M20 20 A 10 10 0 0 1 40 40"`. -/
theorem c2_arc_flag_invariance (ctx : ScaleCtx) (ps : List Part)
    (cmdC : Option Char) (i : Nat) (out raw : String) (v : Frac) :
    ((cmdC = some 'A' ∨ cmdC = some 'a') →
      (i % 7 = 2 ∨ i % 7 = 3 ∨ i % 7 = 4) →
      scalePartsLoop ctx (Part.num raw v :: ps) cmdC i out =
        scalePartsLoop ctx ps cmdC (i + 1) (out ++ raw)) ∧
    ((cmdC = some 'A' ∨ cmdC = some 'a') →
      (i % 7 = 0 ∨ i % 7 = 1 ∨ i % 7 = 5 ∨ i % 7 = 6) →
      scalePartsLoop ctx (Part.num raw v :: ps) cmdC i out =
        scalePartsLoop ctx ps cmdC (i + 1) (out ++ ctx.fmt (mulF v ctx.scale))) ∧
    ((∀ c, cmdC = some c → c ≠ 'A' ∧ c ≠ 'a') →
      scalePartsLoop ctx (Part.num raw v :: ps) cmdC i out =
        scalePartsLoop ctx ps cmdC (i + 1) (out ++ ctx.fmt (mulF v ctx.scale))) ∧
    scalePath "M10 10 A 5 5 0 0 1 20 20" ⟨⟨2, 1⟩, 4, false⟩ =
      Except.ok "M20 20 A 10 10 0 0 1 40 40" := by
  refine ⟨?_, ?_, ?_, rfl⟩
  · rintro (rfl | rfl) (h | h | h) <;> simp [scalePartsLoop, h]
  · rintro (rfl | rfl) (h | h | h | h) <;> simp [scalePartsLoop, h]
  · intro hc
    match cmdC, hc with
    | none, hc => simp [scalePartsLoop]
    | some c, hc =>
      obtain ⟨hA, ha⟩ := hc c rfl
      simp [scalePartsLoop, hA, ha]

/-- Witness for C2 at concrete loop states (arc index 2 copied verbatim, arc
index 0 scaled, non-arc command scaled). -/
theorem c2_witness_concrete :
    scalePartsLoop ⟨⟨2, 1⟩, 4, false⟩ [Part.num "7" ⟨7, 1⟩] (some 'A') 2 "" = "7" ∧
    scalePartsLoop ⟨⟨2, 1⟩, 4, false⟩ [Part.num "7" ⟨7, 1⟩] (some 'A') 0 "" = "14" ∧
    scalePartsLoop ⟨⟨2, 1⟩, 4, false⟩ [Part.num "7" ⟨7, 1⟩] (some 'L') 0 "" = "14" := by
  refine ⟨?_, ?_, ?_⟩
  · exact ((c2_arc_flag_invariance ⟨⟨2, 1⟩, 4, false⟩ [] (some 'A') 2 "" "7" ⟨7, 1⟩).1
      (Or.inl rfl) (Or.inl (by decide))).trans (by decide)
  · exact ((c2_arc_flag_invariance ⟨⟨2, 1⟩, 4, false⟩ [] (some 'A') 0 "" "7" ⟨7, 1⟩).2.1
      (Or.inl rfl) (Or.inl (by decide))).trans (by decide)
  · exact ((c2_arc_flag_invariance ⟨⟨2, 1⟩, 4, false⟩ [] (some 'L') 0 "" "7" ⟨7, 1⟩).2.2.1
      (fun c hc => by cases hc; exact ⟨by decide, by decide⟩)).trans (by decide)

/-- Claim C3 (code bug): the formatter does strip trailing zeros and a
trailing dot, and `format(1.0, 4) = "1"`, `format(0.5, 4) = "0.5"`; but at
precision 0 `trim_end_matches('0')` also strips the trailing zeros of the
integer part, so `format(100.0, 0)` is `"1"`, not the `"100"` the claim and
§4.1 require — stripping changes the numeric value. -/
theorem c3_formatter_precision_zero_bug :
    fmtNum ⟨100, 1⟩ 0 = "1" ∧
    ScaleCtx.fmt ⟨⟨1, 1⟩, 0, false⟩ ⟨100, 1⟩ = "1" ∧
    fmtNum ⟨1, 1⟩ 4 = "1" ∧
    fmtNum ⟨1, 2⟩ 4 = "0.5" ∧
    ("1" : String) ≠ "100" := by
  exact ⟨rfl, rfl, rfl, rfl, by decide⟩

/-- Claim C4 is false on the code: in the numeric-list categories an
uninterpretable numeric token does not fail the conversion — `scale_number_list`
silently copies it to the output verbatim.  Here the malformed literal
`"1.2.3"` cannot be interpreted (`scale_number_token` returns `None`), yet the
`stdDeviation` attribute path emits it unchanged with no error. -/
theorem c4_counterexample_list_token_passthrough :
    scaleNumberToken "1.2.3" ⟨⟨1, 2⟩, 4, false⟩ = none ∧
    scaleNumberList "1.2.3" ⟨⟨1, 2⟩, 4, false⟩ = "1.2.3" ∧
    scaleAttrValue trigZero ⟨⟨1, 2⟩, 4, false⟩ "feGaussianBlur" ""
        false false false false "stdDeviation" "1.2.3" =
      Except.ok "1.2.3" := by
  exact ⟨rfl, by decide, rfl⟩

/-- Claim C4 (amended): a malformed numeric literal in a direct-length
attribute fails the conversion with a descriptive error, but in the
space/comma numeric-list categories (`stroke-dasharray`, `stdDeviation`,
`radius`, `scale`, `kernelUnitLength`, `baseFrequency`) an uninterpretable
token is copied to the output verbatim and unscaled, without error: the
buffered-token flush falls back to the raw text, and the list-key dispatch
always returns `Ok`. -/
theorem c4_amended_error_handling (ctx : ScaleCtx) :
    scaleLengthValue "1.2.3" ctx = Except.error ("invalid length: " ++ "1.2.3") ∧
    (∀ out buf, buf ≠ "" → scaleNumberToken buf ctx = none →
      flushBuf ctx out buf = out ++ buf) ∧
    (∀ tg tagName nodeIdStr nss v,
      eqIgnoreAsciiCase (trimChars v) "none" = false →
      scaleAttrValue tg ctx tagName nodeIdStr false false false nss
          "stroke-dasharray" v =
        Except.ok (scaleNumberList v ctx)) ∧
    (∀ tg tagName nodeIdStr nss v,
      eqIgnoreAsciiCase (trimChars v) "none" = true →
      scaleAttrValue tg ctx tagName nodeIdStr false false false nss
          "stroke-dasharray" v =
        Except.ok v) := by
  refine ⟨rfl, ?_, ?_, ?_⟩
  · intro out buf hne htok
    simp [flushBuf, hne, htok]
  · intro tg tagName nodeIdStr nss v hv
    have hred : scaleAttrValue tg ctx tagName nodeIdStr false false false nss
        "stroke-dasharray" v =
        if eqIgnoreAsciiCase (trimChars v) "none" = true then Except.ok v
        else Except.ok (scaleNumberList v ctx) := rfl
    rw [hred, if_neg (by simp [hv])]
  · intro tg tagName nodeIdStr nss v hv
    have hred : scaleAttrValue tg ctx tagName nodeIdStr false false false nss
        "stroke-dasharray" v =
        if eqIgnoreAsciiCase (trimChars v) "none" = true then Except.ok v
        else Except.ok (scaleNumberList v ctx) := rfl
    rw [hred, if_pos hv]

/-- Witness for C4 (amended) at a concrete context and concrete tokens. -/
theorem c4_amended_witness :
    scaleLengthValue "1.2.3" ⟨⟨1, 2⟩, 4, false⟩ =
      Except.error ("invalid length: " ++ "1.2.3") ∧
    flushBuf ⟨⟨1, 2⟩, 4, false⟩ "x " "1.2.3" = "x " ++ "1.2.3" ∧
    scaleAttrValue trigZero ⟨⟨1, 2⟩, 4, false⟩ "path" "" false false false false
        "stroke-dasharray" "4, 2 1" =
      Except.ok (scaleNumberList "4, 2 1" ⟨⟨1, 2⟩, 4, false⟩) ∧
    scaleAttrValue trigZero ⟨⟨1, 2⟩, 4, false⟩ "path" "" false false false false
        "stroke-dasharray" "none" =
      Except.ok "none" := by
  refine ⟨(c4_amended_error_handling ⟨⟨1, 2⟩, 4, false⟩).1, ?_, ?_, ?_⟩
  · exact (c4_amended_error_handling ⟨⟨1, 2⟩, 4, false⟩).2.1 "x " "1.2.3"
      (by decide) (by rfl)
  · exact (c4_amended_error_handling ⟨⟨1, 2⟩, 4, false⟩).2.2.1 trigZero "path" ""
      false "4, 2 1" (by decide)
  · exact (c4_amended_error_handling ⟨⟨1, 2⟩, 4, false⟩).2.2.2 trigZero "path" ""
      false "none" (by decide)

/-- Claim C5: matched stylesheet rules are merged in order of (specificity
ascending, source order ascending), later entries overwriting earlier ones for
the same key, with specificity `100*(id present) + 10*(class count) + 1*(tag
present)` summed over target and ancestor; the rules `rect {width:20}`,
`.big {width:30}`, `#solo {width:40}` resolve `width` on
`<rect id="solo" class="big"/>` to `"40"` in every declaration order. -/
theorem c5_specificity_cascade :
    (∀ sel : StyleSelector,
      selectorSpecificity sel =
        ((if sel.target.id.isSome then 100 else 0) +
          10 * sel.target.classes.length +
          (if sel.target.element.isSome then 1 else 0)) +
        (match sel.ancestor with
         | some anc =>
            (if anc.id.isSome then 100 else 0) + 10 * anc.classes.length +
              (if anc.element.isSome then 1 else 0)
         | none => 0)) ∧
    (∀ l ∈ cascadeOrders,
      lookupProp "width" (collectMatchingStyleProps (mkRules l) soloElem []) =
        some "40") := by
  constructor
  · have hsimple : ∀ s : SimpleSelector,
        selectorSpecificitySimple s =
          (if s.id.isSome then 100 else 0) + 10 * s.classes.length +
            (if s.element.isSome then 1 else 0) := by
      intro s
      rcases s with ⟨el, idOpt, cls⟩
      simp only [selectorSpecificitySimple]
      cases el <;> cases idOpt <;> cases cls <;> simp
    intro sel
    rcases sel with ⟨anc, rel, tgt⟩
    cases anc <;> simp [selectorSpecificity, hsimple]
  · intro l hl
    fin_cases hl <;> decide

/-- Witness for C5 at the declaration order tag, class, id. -/
theorem c5_witness_concrete :
    lookupProp "width"
      (collectMatchingStyleProps
        (mkRules [(selTag, [("width", "20")]), (selClass, [("width", "30")]),
          (selId, [("width", "40")])])
        soloElem []) = some "40" :=
  c5_specificity_cascade.2
    [(selTag, [("width", "20")]), (selClass, [("width", "30")]),
      (selId, [("width", "40")])]
    (by decide)

/-- Claim C6: for an element carrying `vector-effect="non-scaling-stroke"` as
an attribute or in its cascaded style, with `fixStroke` false the
`stroke-width` attribute/property is left unchanged for every scale factor and
the `vector-effect` declaration is preserved; with `fixStroke` true the
`vector-effect` attribute/property is dropped from the output and the
stroke width is scaled normally. -/
theorem c6_non_scaling_stroke (tg : Trig) (s : Frac) (p : Nat) (sw : String) :
    walkNode tg ⟨s, p, false⟩ [] 1 [] false false
        (XNode.elem "path"
          [("stroke-width", sw), ("vector-effect", "non-scaling-stroke")] []) =
      Except.ok [XNode.elem "path"
        [("stroke-width", sw), ("vector-effect", "non-scaling-stroke")] []] ∧
    walkNode tg ⟨s, p, false⟩ [] 1 [] false false
        (XNode.elem "path"
          [("stroke-width", sw), ("style", "vector-effect:non-scaling-stroke")] []) =
      Except.ok [XNode.elem "path"
        [("stroke-width", sw), ("style", "vector-effect:non-scaling-stroke")] []] ∧
    walkNode tg ⟨s, p, false⟩ [] 1 [] false false
        (XNode.elem "path"
          [("style", "stroke-width:2; vector-effect:non-scaling-stroke")] []) =
      Except.ok [XNode.elem "path"
        [("style", "stroke-width:2; vector-effect:non-scaling-stroke")] []] ∧
    walkNode tg ⟨s, p, true⟩ [] 1 [] false false
        (XNode.elem "path"
          [("stroke-width", "2"), ("vector-effect", "non-scaling-stroke")] []) =
      Except.ok [XNode.elem "path"
        [("stroke-width", (⟨s, p, true⟩ : ScaleCtx).fmt (mulF ⟨2, 1⟩ s))] []] ∧
    walkNode tg ⟨s, p, true⟩ [] 1 [] false false
        (XNode.elem "path"
          [("stroke-width", "2"), ("style", "vector-effect:non-scaling-stroke")] []) =
      Except.ok [XNode.elem "path"
        [("stroke-width", (⟨s, p, true⟩ : ScaleCtx).fmt (mulF ⟨2, 1⟩ s))] []] := by
  exact ⟨rfl, rfl, rfl, rfl, rfl⟩

/-- Claim C7: `scale_path` consumes the entire input: any unconsumed trailing
text or unclassifiable token yields a hard parse error (no partial output),
carrying the byte offset, a nearby snippet, and a classified reason; a
successful result implies the tokenizer consumed everything.  `"X10 20"`
raises `invalid command` at character offset 0 and `"M10e"` raises
`invalid number`. -/
theorem c7_path_error_totality (d : String) (ctx : ScaleCtx) :
    (∀ parts rest, parseParts d.data = PP.ok parts rest → rest ≠ [] →
      scalePath d ctx =
        Except.error (formatPathError d.data (d.data.length - rest.length))) ∧
    (∀ restAt, parseParts d.data = PP.fail restAt →
      scalePath d ctx =
        Except.error (formatPathError d.data (d.data.length - restAt.length))) ∧
    (∀ out, scalePath d ctx = Except.ok out →
      ∃ parts, parseParts d.data = PP.ok parts []) ∧
    (∀ input pos,
      (formatPathError input pos).byteOffset = pos ∧
      (formatPathError input pos).reason = classifyPathError input pos ∧
      (formatPathError input pos).snippet =
        String.mk ((input.take (min (pos + 10) input.length)).drop (pos - 10))) ∧
    scalePath "X10 20" ctx = Except.error ⟨0, 0, "X10 20", "invalid command"⟩ ∧
    scalePath "M10e" ctx = Except.error ⟨1, 1, "M10e", "invalid number"⟩ := by
  refine ⟨?_, ?_, ?_, ?_, rfl, rfl⟩
  · intro parts rest hpp hne
    unfold scalePath
    rw [hpp]
    cases rest with
    | nil => exact absurd rfl hne
    | cons c cs => rfl
  · intro restAt hpp
    unfold scalePath
    rw [hpp]
  · intro out hok
    unfold scalePath at hok
    cases hpp : parseParts d.data with
    | fail restAt => rw [hpp] at hok; exact absurd hok (by simp)
    | ok parts rest =>
      rw [hpp] at hok
      cases rest with
      | nil => exact ⟨parts, rfl⟩
      | cons c cs => exact absurd hok (by simp)
  · intro input pos
    exact ⟨rfl, rfl, rfl⟩

/-- Witness for C7: the general error cases applied at `"X10 20"` (leftover
input) and `"M10e"` (hard failure from the exponent cut). -/
theorem c7_witness_concrete :
    scalePath "X10 20" ⟨⟨1, 1⟩, 4, false⟩ =
      Except.error (formatPathError "X10 20".data
        ("X10 20".data.length - "X10 20".data.length)) ∧
    scalePath "M10e" ⟨⟨1, 1⟩, 4, false⟩ =
      Except.error (formatPathError "M10e".data
        ("M10e".data.length - "10e".data.length)) := by
  constructor
  · exact (c7_path_error_totality "X10 20" ⟨⟨1, 1⟩, 4, false⟩).1 []
      "X10 20".data (by rfl) (by decide)
  · exact (c7_path_error_totality "M10e" ⟨⟨1, 1⟩, 4, false⟩).2.1
      "10e".data (by rfl)

/-- Claim C8 is false on the code: scaling by `1.0` is not the identity modulo
trailing-zero trimming.  A transform list with non-translate operations is
rewritten into a single matrix even at scale 1: `"scale(2) scale(3)"` becomes
`"matrix(6,0,0,6,0,0)"`, while the input contains no trailing zeros a
trimming could remove (no `0` character at all). -/
theorem c8_counterexample_not_textual_identity :
    scaleTransformValue trigZero "scale(2) scale(3)" fone 4 =
      Except.ok "matrix(6,0,0,6,0,0)" ∧
    ("matrix(6,0,0,6,0,0)" : String) ≠ "scale(2) scale(3)" ∧
    trimEndZeros "scale(2) scale(3)" = "scale(2) scale(3)" ∧
    "scale(2) scale(3)".data.all (fun c => c ≠ '0') = true := by
  exact ⟨rfl, by decide, by decide, by decide⟩

/-- Claim C8 (amended): scaling by `1.0` preserves every scaled numeric value
(exactly when the value has at most `precision` fractional digits: the
half-even rounding of the formatter is exact on such values; values needing
more digits are rounded, e.g. `0.33333` → `0.3333`), and numbers are re-emitted
in canonical trimmed form (`"10.0"` → `"10"`); but it is not textual identity:
transform lists containing a non-translate operation are rewritten to a single
matrix, while pure-translate transforms keep their form. -/
theorem c8_amended_scale_one (q : Frac) (hden : 0 < q.den) (hdvd : q.den ∣ q.num) :
    rhe q * q.den = q.num ∧
    (∀ w : Frac, mulF w fone = w) ∧
    scalePath "M10.0 10" ⟨fone, 4, false⟩ = Except.ok "M10 10" ∧
    scalePath "M0.33333 0" ⟨fone, 4, false⟩ = Except.ok "M0.3333 0" ∧
    scaleLengthValue "10.0" ⟨fone, 4, false⟩ = Except.ok "10" ∧
    scaleTransformValue trigZero "translate(10,20)" fone 4 =
      Except.ok "translate(10,20)" := by
  refine ⟨rhe_exact q hden hdvd, ?_, rfl, rfl, rfl, rfl⟩
  intro w
  cases w
  simp [mulF, fone]

/-- Witness for C8 (amended) at the integer-valued fraction `20/2`. -/
theorem c8_amended_witness :
    rhe ⟨20, 2⟩ * (⟨20, 2⟩ : Frac).den = (⟨20, 2⟩ : Frac).num ∧
    mulF ⟨7, 3⟩ fone = ⟨7, 3⟩ ∧
    scalePath "M10.0 10" ⟨fone, 4, false⟩ = Except.ok "M10 10" := by
  have h := c8_amended_scale_one ⟨20, 2⟩ (by decide) ⟨10, by decide⟩
  exact ⟨h.1, h.2.1 ⟨7, 3⟩, h.2.2.1⟩

/-- Claim C9 is false on the code: the style-property dispatch of
`scale_style_value` has no `fx`/`fy` arm (and no `scale` arm), so a
style-declared `fx` of `"10"` at scale 2 is emitted unchanged, while the
attribute dispatch scales it to `"20"`. -/
theorem c9_counterexample_style_fx_not_scaled :
    scaleStyleValue trigZero "fx" "10" ⟨⟨2, 1⟩, 4, false⟩ false false =
      Except.ok "10" ∧
    scaleAttrValue trigZero ⟨⟨2, 1⟩, 4, false⟩ "radialGradient" ""
        false false false false "fx" "10" = Except.ok "20" ∧
    scaleStyleValue trigZero "scale" "10" ⟨⟨2, 1⟩, 4, false⟩ false false =
      Except.ok "10" ∧
    scaleAttrValue trigZero ⟨⟨2, 1⟩, 4, false⟩ "feDisplacementMap" ""
        false false false false "scale" "10" = Except.ok "20" ∧
    ("10" : String) ≠ "20" := by
  exact ⟨rfl, rfl, rfl, rfl, by decide⟩

/-- Claim C9 (amended): the attribute and style dispatches agree on their
shared keys (same lengths scaled via `scale_length_value`, same numeric-list
scaling for `stroke-dasharray`), but `fx`, `fy` (direct-length) and `scale`
(numeric-list) appear only in the attribute dispatch; as style properties
they fall to the pass-through arm and are emitted unscaled. -/
theorem c9_amended_dispatch (tg : Trig) (ctx : ScaleCtx) (v : String)
    (tagName nodeIdStr : String) :
    scaleStyleValue tg "fx" v ctx false false = Except.ok v ∧
    scaleStyleValue tg "fy" v ctx false false = Except.ok v ∧
    scaleStyleValue tg "scale" v ctx false false = Except.ok v ∧
    (scaleStyleValue tg "width" v ctx false false).toOption =
      (scaleAttrValue tg ctx tagName nodeIdStr false false false false
        "width" v).toOption ∧
    scaleStyleValue tg "stroke-dasharray" v ctx false false =
      scaleAttrValue tg ctx tagName nodeIdStr false false false false
        "stroke-dasharray" v ∧
    scaleStyleValue tg "stdDeviation" v ctx false false =
      Except.ok (scaleNumberList v ctx) := by
  refine ⟨rfl, rfl, rfl, ?_, rfl, rfl⟩
  have hS : scaleStyleValue tg "width" v ctx false false =
      Except.mapError
        (fun e => "invalid " ++ "width" ++ " in style: " ++ v ++ ": " ++ e)
        (scaleLengthValue v ctx) := rfl
  have hA : scaleAttrValue tg ctx tagName nodeIdStr false false false false
      "width" v =
      Except.mapError
        (fun e => "invalid " ++ "width" ++ " on " ++ errLoc tagName nodeIdStr ++
          ": " ++ e)
        (scaleLengthValue v ctx) := rfl
  rw [hS, hA, toOption_mapError, toOption_mapError]

/-- Claim C10: the inverse-frequency scaler is total in the scale factor: at
scale 0 the value is returned unchanged (the `1/scale` division is guarded),
and at any nonzero scale it equals the plain numeric-list scaler run with the
reciprocal scale, so each supported token is multiplied by `1/scale`; in
particular `baseFrequency="0.05 0.1"` at scale `0.5` becomes `"0.1 0.2"`. -/
theorem c10_inverse_frequency_total (ctx : ScaleCtx) (v : String) :
    (eqF ctx.scale fzero = true → scaleNumberListInverse v ctx = v) ∧
    (eqF ctx.scale fzero = false →
      scaleNumberListInverse v ctx =
        scaleNumberList v ⟨divF fone ctx.scale, ctx.precision, ctx.fixStroke⟩) ∧
    scaleNumberListInverse "0.05 0.1" ⟨⟨1, 2⟩, 4, false⟩ = "0.1 0.2" := by
  refine ⟨?_, ?_, by decide⟩
  · intro h
    simp [scaleNumberListInverse, h]
  · intro h
    simp [scaleNumberListInverse, scaleNumberList, h, numListLoopInv_eq]

/-- Witness for C10: the zero-scale guard at scale 0, and the reciprocal
equality at scale 1/2. -/
theorem c10_witness_concrete :
    scaleNumberListInverse "3" ⟨⟨0, 1⟩, 4, false⟩ = "3" ∧
    scaleNumberListInverse "4" ⟨⟨1, 2⟩, 4, false⟩ =
      scaleNumberList "4" ⟨divF fone ⟨1, 2⟩, 4, false⟩ := by
  constructor
  · exact (c10_inverse_frequency_total ⟨⟨0, 1⟩, 4, false⟩ "3").1 (by decide)
  · exact (c10_inverse_frequency_total ⟨⟨1, 2⟩, 4, false⟩ "4").2.1 (by decide)

end SvgScale
